import Mathlib

/-!
Verification development for the Roblox user-verifier repository
(`verification.py` CLI and `app.py` Streamlit UI).

The Python source is shallowly embedded: pure logic functions become Lean
functions; the HTTP collaborators become explicit data (an `Env` of fetch
results, a `Net` oracle, and page-response streams for the paginated badge
endpoints); fallible code returns `Except`/`Option`.  All definitions are
executable.
-/

/-- Decidable prefix test on character lists (models Python `str.startswith`
as used implicitly by substring search). -/
def leadMatch : List Char → List Char → Bool
  | [], _ => true
  | _ :: _, [] => false
  | a :: as, b :: bs => if a = b then leadMatch as bs else false

/-- Decidable substring test on character lists. -/
def hasSub (needle : List Char) : List Char → Bool
  | [] => needle.isEmpty
  | b :: bs => leadMatch needle (b :: bs) || hasSub needle bs

/-- Models the Python membership test `sub in hay` on strings. -/
def strHasSub (hay sub : String) : Bool :=
  hasSub sub.data hay.data

/-- Characters stripped by Python `str.strip()` (whitespace, restricted to
the ASCII whitespace actually occurring in CSV payloads). -/
def isSpaceChar (c : Char) : Bool :=
  c = ' ' || c = '\t' || c = '\r' || c = '\n'

/-- Models Python `str.strip()` on a character list. -/
def trimChars (l : List Char) : List Char :=
  ((l.dropWhile isSpaceChar).reverse.dropWhile isSpaceChar).reverse

/-- Split a character list on a separator character; models Python
`str.split(sep)` (and `str.splitlines` for `sep = newline`, restricted to
line-feed line endings). -/
def splitOnChar (sep : Char) : List Char → List (List Char)
  | [] => [[]]
  | c :: rest =>
    let r := splitOnChar sep rest
    if c = sep then [] :: r
    else
      match r with
      | h :: t => (c :: h) :: t
      | [] => [[c]]

/-- Models Python `str.isdigit()` for ASCII content: nonempty and all
decimal digits. -/
def isDigitsL (l : List Char) : Bool :=
  !l.isEmpty && l.all Char.isDigit

/-- Numeric value of a decimal digit string; models Python `int(col)` on a
string that passed `isdigit()`. -/
def toNatNum (l : List Char) : Nat :=
  l.foldl (fun n c => 10 * n + (c.toNat - 48)) 0

/-- Count of decimal digit characters in a string.  This definition is taken
from the spec's words (spec 4.2 clause (d): "count of decimal digit
characters in the username"); no function in the source computes it — it is
used only to state claim C3 against the source's `check_username`. -/
def digitCount (s : String) : Nat :=
  (s.data.filter Char.isDigit).length

/- ### Badge pagination model (`get_oldest_badges` / `get_total_badge_count`) -/

/-- A badge item as consumed by the engine (`badge['id']`; `awardedAt` is
carried for the data model but never branched on by the fetchers). -/
structure Badge where
  id : Nat
  awardedAt : Option Int
deriving DecidableEq, Repr

/-- One page of the badge collection endpoint: `data` items and the
`nextPageCursor` field (`none` models a missing/null cursor). -/
structure Page where
  items : List Badge
  nextCursor : Option String
deriving DecidableEq, Repr

/-- Result of one page request: the parsed page, or a transport failure
(`requests.RequestException`). -/
inductive Resp where
  | ok (p : Page)
  | fail
deriving DecidableEq, Repr

/-- Output of the `get_oldest_badges` while-loop: accumulated badges, number
of page requests issued, and whether the response stream was exhausted while
the loop still wanted another page (`starved = true` never happens against a
well-formed paginated collection; see C10). -/
structure OldOut where
  badges : List Badge
  requests : Nat
  starved : Bool
deriving DecidableEq, Repr

/-- The while-loop of `get_oldest_badges` (verification.py lines 94-124,
app.py lines 99-115), with the successive page responses supplied as a
stream.  Loop guard `len(badges) < total_limit`; a transport failure, an
empty `data` list, or a missing/empty `nextPageCursor` breaks the loop. -/
def oldestRun (limit : Nat) : List Resp → List Badge → OldOut
  | [], acc => if acc.length < limit then ⟨acc, 0, true⟩ else ⟨acc, 0, false⟩
  | .fail :: _, acc => if acc.length < limit then ⟨acc, 1, false⟩ else ⟨acc, 0, false⟩
  | .ok p :: rest, acc =>
    if acc.length < limit then
      if p.items = [] then ⟨acc, 1, false⟩
      else
        let acc' := acc ++ p.items
        match p.nextCursor with
        | none => ⟨acc', 1, false⟩
        | some c =>
          if c = "" then ⟨acc', 1, false⟩
          else
            let o := oldestRun limit rest acc'
            ⟨o.badges, o.requests + 1, o.starved⟩
    else ⟨acc, 0, false⟩

/-- `get_oldest_badges` (verification.py lines 82-125, app.py lines 94-116):
runs the loop from an empty accumulator and returns `badges[:total_limit]`. -/
def get_oldest_badges (limit : Nat) (resps : List Resp) : List Badge :=
  (oldestRun limit resps []).badges.take limit

/-- Output of the `get_total_badge_count` while-loop. -/
structure CountOut where
  total : Nat
  requests : Nat
  starved : Bool
deriving DecidableEq, Repr

/-- The while-loop of `get_total_badge_count` (verification.py lines 140-178,
app.py lines 124-143): accumulates page sizes, returns immediately once the
running total reaches `pass_threshold`; transport failure, an empty page, or
a missing/empty cursor breaks the loop and the partial total is returned. -/
def totalCountRun (t : Nat) (resps : List Resp) (total : Nat) : CountOut :=
  match resps with
  | [] => ⟨total, 0, true⟩
  | .fail :: _ => ⟨total, 1, false⟩
  | .ok p :: rest =>
    if p.items.length = 0 then ⟨total, 1, false⟩
    else
      let total' := total + p.items.length
      if t ≤ total' then ⟨total', 1, false⟩
      else
        match p.nextCursor with
        | none => ⟨total', 1, false⟩
        | some c =>
          if c = "" then ⟨total', 1, false⟩
          else
            let o := totalCountRun t rest total'
            ⟨o.total, o.requests + 1, o.starved⟩

/-- `get_total_badge_count` (verification.py lines 127-178, app.py lines
119-143). -/
def get_total_badge_count (t : Nat) (resps : List Resp) : Nat :=
  (totalCountRun t resps 0).total

/- ### A well-formed paginated view of a finite badge collection -/

/-- Cut a list into successive chunks of 100 items (the fixed
`page_limit = 100` used by both fetchers). -/
def chunk100 : List Badge → List (List Badge)
  | [] => []
  | a :: rest => ((a :: rest).take 100) :: chunk100 ((a :: rest).drop 100)
termination_by l => l.length
decreasing_by
  simp only [List.length_drop, List.length_cons]
  omega

/-- Attach continuation cursors to a chunk list: every page except the last
carries a (nonempty) cursor; the last page has none. -/
def mkPages : List (List Badge) → List Page
  | [] => []
  | [c] => [⟨c, none⟩]
  | c :: c' :: cs => ⟨c, some "cur"⟩ :: mkPages (c' :: cs)

/-- The page sequence a well-formed collection endpoint serves for the finite
badge list `bs` (an empty collection still serves one empty final page). -/
def pagesOf (bs : List Badge) : List Page :=
  match chunk100 bs with
  | [] => [⟨[], none⟩]
  | c :: cs => mkPages (c :: cs)

/-- Failure-free response stream for the collection `bs`. -/
def cleanResps (bs : List Badge) : List Resp :=
  (pagesOf bs).map Resp.ok

/-- Pages that all claim a continuation cursor (used to model a transport
failure striking strictly before the collection is exhausted). -/
def mkPagesCur (cs : List (List Badge)) : List Page :=
  cs.map (fun c => ⟨c, some "cur"⟩)

/-- Total number of items in a chunk list. -/
def sumLen (cs : List (List Badge)) : Nat :=
  (cs.map List.length).sum

/-- Shape of `chunk100` output: every chunk before the last has exactly 100
items, and every chunk is nonempty. -/
def chunkShape : List (List Badge) → Prop
  | [] => True
  | [c] => c ≠ []
  | c :: c' :: cs => c.length = 100 ∧ c ≠ [] ∧ chunkShape (c' :: cs)

/-- Failure-free response stream for an explicit chunk list. -/
def respsOf (cs : List (List Badge)) : List Resp :=
  (mkPages cs).map Resp.ok

/-- Badge collection of `n` distinct badges, used as concrete witness data. -/
def mkBadges (n : Nat) : List Badge :=
  (List.range n).map (fun i => ⟨i, none⟩)

/- ### Timestamps and the account-age rule -/

/-- ASCII lower-casing of one character; models Python `str.lower()`
restricted to ASCII (Roblox usernames and group names are ASCII). -/
def lowerChar (c : Char) : Char :=
  if 65 ≤ c.toNat ∧ c.toNat ≤ 90 then Char.ofNat (c.toNat + 32) else c

/-- Models Python `str.lower()`. -/
def lowerStr (s : String) : String :=
  String.mk (s.data.map lowerChar)

/-- Models Python `str.strip()`. -/
def trimStr (s : String) : String :=
  String.mk (trimChars s.data)

/-- Models Python `str.replace(old, new)` for a one-character pattern
(the source only calls it as `created_str.replace('Z', '+00:00')`). -/
def replaceChar (c : Char) (rep : List Char) : List Char → List Char
  | [] => []
  | x :: xs =>
    if x = c then rep ++ replaceChar c rep xs else x :: replaceChar c rep xs

/-- Numeric value of one decimal digit character. -/
def digitVal (c : Char) : Int :=
  Int.ofNat (c.toNat - 48)

/-- Days since the Unix epoch of a civil date (the standard
days-from-civil computation); used to model timestamp arithmetic. -/
def daysFromCivil (y m d : Int) : Int :=
  let y' := if m ≤ 2 then y - 1 else y
  let era := (if 0 ≤ y' then y' else y' - 399) / 400
  let yoe := y' - era * 400
  let mp := (m + 9) % 12
  let doy := (153 * mp + 2) / 5 + d - 1
  let doe := yoe * 365 + yoe / 4 - yoe / 100 + doy
  era * 146097 + doe - 719468

/-- Models the library call `datetime.datetime.fromisoformat` at the
granularity the claims need: accepts `YYYY-MM-DD` (with a plausible month
and day) followed by nothing or a `T`/space time part, returning the civil
date as a day count; returns `none` (the library raises `ValueError`) on
any other shape.  Simplifications relative to the library: the time-of-day
and offset are not validated or included in the value (the engine only
compares whole-day differences against a 60-day threshold), and day-in-month
validity is approximated by `1 ≤ d ≤ 31`. -/
def fromisoformat (s : String) : Option Int :=
  match s.data with
  | y1 :: y2 :: y3 :: y4 :: s1 :: m1 :: m2 :: s2 :: d1 :: d2 :: rest =>
    if y1.isDigit ∧ y2.isDigit ∧ y3.isDigit ∧ y4.isDigit ∧ s1 = '-' ∧
        m1.isDigit ∧ m2.isDigit ∧ s2 = '-' ∧ d1.isDigit ∧ d2.isDigit then
      let y := digitVal y1 * 1000 + digitVal y2 * 100 + digitVal y3 * 10 + digitVal y4
      let mo := digitVal m1 * 10 + digitVal m2
      let d := digitVal d1 * 10 + digitVal d2
      if 1 ≤ mo ∧ mo ≤ 12 ∧ 1 ≤ d ∧ d ≤ 31 ∧
          (rest = [] ∨ rest.head? = some 'T' ∨ rest.head? = some ' ') then
        some (daysFromCivil y mo d)
      else none
    else none
  | _ => none

/- ### Data model -/

/-- Profile snapshot fields consumed by the rules (`user_info` dict). -/
structure UserInfo where
  name : String
  displayName : String
  created : Option String
deriving DecidableEq, Repr

/-- One group membership as consumed by the rules: `g['group']['id']`,
`g['group']['name']`, and `g['group']['owner']['userId']` when the owner
field is a dict (`none` models an absent/non-dict owner, which Python keeps
distinct from every real ID as `owner_id = None`). -/
structure GroupInfo where
  id : Nat
  name : String
  owner : Option Nat
deriving DecidableEq, Repr

/-- The Rule Parameter Set loaded from `config.json` (ID sets as Python
sets; the two word collections as lists, standing for the iteration order
Python happens to use over its sets). -/
structure Config where
  FRIENDLY_OWNER_IDS : Finset Nat
  BA_UK_GROUP_IDS : Finset Nat
  BLACKLISTED_GROUP_IDS : Finset Nat
  BA_BADGE_IDS : Finset Nat
  IFD_BLACKLIST_IDS : Finset Nat
  BA_BLACKLIST_IDS : Finset Nat
  NSFW_WORDS : List String
  BA_MEMBER_IMPERSONATION_LIST : List String

/-- Rule thresholds (app.py lines 146-151; verification.py uses the same
literal values inline). -/
def MIN_ACCOUNT_AGE_DAYS : Int := 60

/-- Minimum friend count threshold (app.py line 147). -/
def MIN_FRIEND_COUNT : Nat := 30

/-- Minimum non-affiliated-group count threshold (app.py line 148). -/
def MIN_NON_BA_GROUP_COUNT : Nat := 13

/-- Minimum badge count threshold (app.py line 149). -/
def MIN_BADGE_COUNT : Nat := 300

/-- Oldest-badge sample size (app.py line 150). -/
def OLDEST_BADGES_TO_CHECK : Nat := 90

/-- Username digit-spam threshold (app.py line 151).  Defined in the source
but referenced by no function there. -/
def USERNAME_DIGIT_THRESHOLD : Nat := 4

/- ### Rule functions -/

/-- The age comparison at the end of `check_account_age` (both files):
`days_old < 60` dismisses. -/
def ageVerdict (now created : Int) : Bool × String :=
  let days_old := now - created
  if days_old < MIN_ACCOUNT_AGE_DAYS then
    (true, "Account is " ++ toString days_old ++ " days old (under 60).")
  else
    (false, "Account is " ++ toString days_old ++ " days old.")

/-- `check_account_age` (verification.py lines 182-206, app.py lines
153-170).  `now` is the current instant as an epoch day count.  The result
is `.error` when the Python code lets an exception propagate: the branch for
timestamps containing the character Z calls `fromisoformat` outside any
`try`, so a parse failure there raises; the non-Z branch catches
`ValueError` and returns an unverifiable-age dismissal instead. -/
def check_account_age (now : Int) (user_info : UserInfo) :
    Except String (Bool × String) :=
  match user_info.created with
  | none => .ok (true, "Could not verify account age.")
  | some created_str =>
    if created_str = "" then .ok (true, "Could not verify account age.")
    else if created_str.data.contains 'Z' then
      match fromisoformat (String.mk (replaceChar 'Z' "+00:00".data created_str.data)) with
      | none => .error ("Invalid isoformat string: " ++
          String.mk (replaceChar 'Z' "+00:00".data created_str.data))
      | some created => .ok (ageVerdict now created)
    else
      match fromisoformat created_str with
      | none => .ok (true, "Could not parse account creation date: " ++ created_str)
      | some created => .ok (ageVerdict now created)

/-- `check_username` (verification.py lines 208-221, app.py lines 172-181):
returns `(instant-dismissal reason, red-flag reason)`.  Checks in order:
substring `alt`, impersonation-list membership, NSFW word substring.  Every
return site of the source puts `None` in the red-flag slot. -/
def check_username (cfg : Config) (user_info : UserInfo) :
    Option String × Option String :=
  let username := lowerStr user_info.name
  if strHasSub username "alt" then
    (some "Username contains 'alt'.", none)
  else if cfg.BA_MEMBER_IMPERSONATION_LIST.contains username then
    (some "Username impersonates a BA member.", none)
  else
    match cfg.NSFW_WORDS.find? (fun w => strHasSub username w) with
    | some w => (some ("Username contains offensive word: '" ++ w ++ "'."), none)
    | none => (none, none)

/-- Python `owner_id not in FRIENDLY_OWNER_IDS` where `owner_id` may be
`None` (`None` is never in a set of ints, so an absent owner passes the
condition). -/
def ownerNotFriendly (cfg : Config) (owner : Option Nat) : Bool :=
  match owner with
  | some o => decide (o ∉ cfg.FRIENDLY_OWNER_IDS)
  | none => true

/-- `check_blacklists` (verification.py lines 261-291, app.py lines
204-220), parameterized by the (possibly merged) IFD blacklist as in app.py;
verification.py passes its static global.  All applicable reasons
accumulate; per group the blacklisted-group reason precedes the
unauthorized-affiliate reason. -/
def check_blacklists (cfg : Config) (ifd : Finset Nat) (user_id : Nat)
    (groups : List GroupInfo) : List String :=
  (if user_id ∈ ifd then ["User is on the IFD Blacklist."] else []) ++
  (if user_id ∈ cfg.BA_BLACKLIST_IDS then ["User is on the BA Blacklist."] else []) ++
  groups.flatMap (fun g =>
    (if g.id ∈ cfg.BLACKLISTED_GROUP_IDS then
      ["User is in a blacklisted group: " ++ g.name ++ "."]
    else []) ++
    (if strHasSub (lowerStr g.name) "british army" ∧ g.id ∉ cfg.BA_UK_GROUP_IDS ∧
        ownerNotFriendly cfg g.owner then
      ["User is in another British Army group: " ++ g.name ++ "."]
    else []))

/-- `check_social_activity` (verification.py lines 223-259, app.py lines
183-202): friend-count flag (or unverifiable flag), non-affiliated-group
count flag, badge threshold-count flag, and a single oldest-sample
affiliated-badge flag (first match only).  The two badge fetches consume the
supplied response streams. -/
def check_social_activity (cfg : Config) (friendCount : Option Nat)
    (groups : List GroupInfo) (badgeResps oldestResps : List Resp) : List String :=
  (match friendCount with
   | none => ["Could not verify friend count."]
   | some c =>
     if c < MIN_FRIEND_COUNT then
       ["Fewer than 30 friends (" ++ toString c ++ ")."]
     else []) ++
  (let non_ba_group_count :=
    (groups.filter (fun g => decide (g.id ∉ cfg.BA_UK_GROUP_IDS))).length
   if non_ba_group_count < MIN_NON_BA_GROUP_COUNT then
     ["Fewer than 13 non-BA groups (" ++ toString non_ba_group_count ++ ")."]
   else []) ++
  (let badge_count := get_total_badge_count MIN_BADGE_COUNT badgeResps
   if badge_count < MIN_BADGE_COUNT then
     ["Fewer than 10 pages of badges (" ++ toString badge_count ++ " total)."]
   else []) ++
  (match (get_oldest_badges OLDEST_BADGES_TO_CHECK oldestResps).find?
      (fun b => decide (b.id ∈ cfg.BA_BADGE_IDS)) with
   | some b => ["BA-related badge found in oldest 3 pages (ID: " ++ toString b.id ++ ")."]
   | none => [])

/- ### Supplementary blacklist fetch and merge -/

/-- Scan to the remainder after the first `://`; helper for `hostname`. -/
def afterScheme : List Char → Option (List Char)
  | [] => none
  | ':' :: '/' :: '/' :: rest => some rest
  | _ :: rest => afterScheme rest

/-- Models `urllib.parse.urlparse(url).hostname` for ordinary http(s) URLs:
the authority runs from after `://` to the first `/`, `?` or `#`; userinfo
(up to the last `@`) and a `:port` suffix are stripped and the host is
lower-cased; an absent or empty host is `None`.  (IPv6 bracket syntax is
not modelled.) -/
def hostname (url : String) : Option String :=
  match afterScheme url.data with
  | none => none
  | some rest =>
    let netloc := rest.takeWhile (fun c => decide (c ≠ '/' ∧ c ≠ '?' ∧ c ≠ '#'))
    let afterU := (netloc.reverse.takeWhile (fun c => decide (c ≠ '@'))).reverse
    let host := afterU.takeWhile (fun c => decide (c ≠ ':'))
    if host = [] then none else some (String.mk (host.map lowerChar))

/-- CSV-ish ID extraction shared by both `fetch_live_blacklist` versions
(verification.py lines 301-310, app.py lines 239-246): strip the payload,
split into lines, split each line on commas, trim each column, keep the
all-digit columns as IDs. -/
def parseCsvIds (text : String) : Finset Nat :=
  let lines := splitOnChar '\n' (trimChars text.data)
  let cols := lines.flatMap (fun line => (splitOnChar ',' line).map trimChars)
  (((cols.filter isDigitsL).map toNatNum)).toFinset

/-- The HTTP text-fetch collaborator (`requests.get(url).text`, `none` for a
`RequestException`). -/
structure Net where
  fetchText : String → Option String

/-- `fetch_live_blacklist` as defined in app.py (lines 222-248): validates
that the URL's host is `docs.google.com` before any request; on any other
host it returns the empty set without touching the network.  The `Bool`
records whether a network request was issued. -/
def fetch_live_blacklist_app (net : Net) (url : String) : Finset Nat × Bool :=
  if hostname url ≠ some "docs.google.com" then (∅, false)
  else
    match net.fetchText url with
    | none => (∅, true)
    | some text => (parseCsvIds text, true)

/-- `fetch_live_blacklist` as defined in verification.py (lines 293-313):
no host validation of any kind — the request is issued for every URL.  (The
CLI `main` never calls this function.) -/
def fetch_live_blacklist_cli (net : Net) (url : String) : Finset Nat × Bool :=
  match net.fetchText url with
  | none => (∅, true)
  | some text => (parseCsvIds text, true)

/-- The blacklist merge performed by the UI run block (app.py line 300):
`temp_ifd = set(IFD_BLACKLIST_IDS) | set(new_ids)` — a fresh set equal to
the union; the static configuration set is a value here, so it cannot be
mutated or aliased by the merge. -/
def mergeBlacklist (staticIds newIds : Finset Nat) : Finset Nat :=
  staticIds ∪ newIds

/-- The `temp_ifd` selection of the UI run block (app.py lines 293-305): a
merge happens only when a sheet URL was supplied and the fetch yielded a
nonempty ID set; otherwise `temp_ifd` is (a copy of) the static set. -/
def computeTempIfd (staticIfd : Finset Nat) (sheetUrl : String)
    (newIds : Finset Nat) : Finset Nat :=
  if sheetUrl ≠ "" then
    (if newIds ≠ ∅ then mergeBlacklist staticIfd newIds else staticIfd)
  else staticIfd

/- ### Orchestrators -/

/-- Terminal decision of the final evaluation. -/
inductive Status where
  | verified
  | dismissed
deriving DecidableEq, Repr

/-- The final evaluation (verification.py line 394, app.py line 353):
`if len(red_flags) >= 2: DISMISSED else: VERIFIED`. -/
def finalVerdict (red_flags : List String) : Status :=
  if 2 ≤ red_flags.length then .dismissed else .verified

/-- Observable steps of one verification run, in execution order: the fetch
calls issued and the rule functions invoked. -/
inductive Event where
  | fetchUserId
  | fetchUserInfo
  | fetchGroups
  | ruleAge
  | ruleUsername
  | ruleBlacklists
  | socialActivity
  | fetchFriendCount
  | fetchBadgeCount
  | fetchOldestBadges
deriving DecidableEq, Repr

/-- How one run ends. -/
inductive Outcome where
  | noUsername
  | userNotFound
  | userInfoFetchError
  | groupsFetchError
  | raised (msg : String)
  | instantDismissed (reasons : List String)
  | finalReport (status : Status) (redFlags : List String)
deriving DecidableEq, Repr

/-- Results the fetch collaborators would return during one run (`none`
models a failed fetch / user not found; the badge endpoints are response
streams consumed by the paginated fetchers). -/
structure Env where
  userId : Option Nat
  userInfo : Option UserInfo
  groups : Option (List GroupInfo)
  friendCount : Option Nat
  badgeResps : List Resp
  oldestResps : List Resp

/-- The accumulated `instant_dismissals` list, in the order both
orchestrators build it: age reason (if dismissed), then the username
dismissal reason (if any), then all blacklist/group reasons. -/
def instantList (cfg : Config) (ageRes : Bool × String) (ui : UserInfo)
    (ifd : Finset Nat) (uid : Nat) (groups : List GroupInfo) : List String :=
  (if ageRes.1 then [ageRes.2] else []) ++
  (check_username cfg ui).1.toList ++
  check_blacklists cfg ifd uid groups

/-- The CLI orchestrator `main` (verification.py lines 317-408).  Execution
order: strip input; resolve user id; fetch profile; account-age rule (a
parse exception propagates out of `main`); username rule; fetch groups
(aborting here if it fails — note the age and username rules have already
run); blacklist rule; early dismissal, else social-activity checks and the
final evaluation.  The event list records the fetches issued and rules
invoked, in order. -/
def mainRun (cfg : Config) (now : Int) (env : Env) (inputName : String) :
    Outcome × List Event :=
  if trimStr inputName = "" then (.noUsername, [])
  else
    match env.userId with
    | none => (.userNotFound, [.fetchUserId])
    | some uid =>
      match env.userInfo with
      | none => (.userInfoFetchError, [.fetchUserId, .fetchUserInfo])
      | some ui =>
        match check_account_age now ui with
        | .error m => (.raised m, [.fetchUserId, .fetchUserInfo, .ruleAge])
        | .ok ageRes =>
          match env.groups with
          | none =>
            (.groupsFetchError,
             [.fetchUserId, .fetchUserInfo, .ruleAge, .ruleUsername, .fetchGroups])
          | some groups =>
            if instantList cfg ageRes ui cfg.IFD_BLACKLIST_IDS uid groups = [] then
              (.finalReport
                  (finalVerdict ((check_username cfg ui).2.toList ++
                    check_social_activity cfg env.friendCount groups
                      env.badgeResps env.oldestResps))
                  ((check_username cfg ui).2.toList ++
                    check_social_activity cfg env.friendCount groups
                      env.badgeResps env.oldestResps),
               [.fetchUserId, .fetchUserInfo, .ruleAge, .ruleUsername, .fetchGroups,
                .ruleBlacklists, .socialActivity, .fetchFriendCount, .fetchBadgeCount,
                .fetchOldestBadges])
            else
              (.instantDismissed
                  (instantList cfg ageRes ui cfg.IFD_BLACKLIST_IDS uid groups),
               [.fetchUserId, .fetchUserInfo, .ruleAge, .ruleUsername, .fetchGroups,
                .ruleBlacklists])

/-- The UI run block (app.py lines 275-363).  Differences from the CLI:
no strip on the username; profile and group fetches are both issued before
either is checked, so a failure of either aborts before any rule runs; the
optional live blacklist is fetched and merged into `temp_ifd` before the
rules.  Display-only work after the verdict (avatar, tables, report
download) is presentation-layer and outside the model. -/
def appRun (cfg : Config) (now : Int) (env : Env) (username sheetUrl : String)
    (net : Net) : Outcome × List Event :=
  if username = "" then (.noUsername, [])
  else
    match env.userId with
    | none => (.userNotFound, [.fetchUserId])
    | some uid =>
      match env.userInfo with
      | none => (.userInfoFetchError, [.fetchUserId, .fetchUserInfo, .fetchGroups])
      | some ui =>
        match env.groups with
        | none => (.groupsFetchError, [.fetchUserId, .fetchUserInfo, .fetchGroups])
        | some groups =>
          match check_account_age now ui with
          | .error m =>
            (.raised m, [.fetchUserId, .fetchUserInfo, .fetchGroups, .ruleAge])
          | .ok ageRes =>
            if instantList cfg ageRes ui
                (computeTempIfd cfg.IFD_BLACKLIST_IDS sheetUrl
                  (if sheetUrl = "" then ∅
                   else (fetch_live_blacklist_app net sheetUrl).1))
                uid groups = [] then
              (.finalReport
                  (finalVerdict ((check_username cfg ui).2.toList ++
                    check_social_activity cfg env.friendCount groups
                      env.badgeResps env.oldestResps))
                  ((check_username cfg ui).2.toList ++
                    check_social_activity cfg env.friendCount groups
                      env.badgeResps env.oldestResps),
               [.fetchUserId, .fetchUserInfo, .fetchGroups, .ruleAge, .ruleUsername,
                .ruleBlacklists, .socialActivity, .fetchFriendCount, .fetchBadgeCount,
                .fetchOldestBadges])
            else
              (.instantDismissed
                  (instantList cfg ageRes ui
                    (computeTempIfd cfg.IFD_BLACKLIST_IDS sheetUrl
                      (if sheetUrl = "" then ∅
                       else (fetch_live_blacklist_app net sheetUrl).1))
                    uid groups),
               [.fetchUserId, .fetchUserInfo, .fetchGroups, .ruleAge, .ruleUsername,
                .ruleBlacklists])

/- ### Concrete data for witnesses and counterexamples -/

/-- A Rule Parameter Set with all sets empty (no configured blacklists,
affiliations, or word lists). -/
def cfg0 : Config := ⟨∅, ∅, ∅, ∅, ∅, ∅, [], []⟩

/-- A current instant: epoch day 20000 (mid-2024). -/
def t0 : Int := 20000

/-- A clean profile created 2016-01-01 (3199 days before `t0`). -/
def ui1 : UserInfo := ⟨"gooduser", "Good", some "2016-01-01T00:00:00Z"⟩

/-- A profile whose username contains the substring `alt`. -/
def ui2 : UserInfo := ⟨"CoolAltAccount", "Cool", some "2016-01-01T00:00:00Z"⟩

/-- Thirteen unaffiliated group memberships. -/
def gs13 : List GroupInfo := (List.range 13).map (fun i => ⟨i + 1, "Club", none⟩)

/-- An environment describing a healthy run: user found, clean profile, 13
groups, 30 friends, and an empty badge collection (so exactly one red flag
arises, from the badge count). -/
def env1 : Env := ⟨some 7, some ui1, some gs13, some 30,
  [Resp.ok ⟨[], none⟩], [Resp.ok ⟨[], none⟩]⟩

/-- Like `env1` but the profile's username contains `alt`. -/
def env2 : Env := { env1 with userInfo := some ui2 }

/-- Like `env1` but the group-membership fetch fails. -/
def env9 : Env := { env1 with groups := none }

/-- Like `env1` but the profile fetch fails. -/
def envNoInfo : Env := { env1 with userInfo := none }

/-- Like `env1` but with a malformed creation timestamp containing `Z`. -/
def envZ : Env := { env1 with userInfo := some ⟨"victim", "V", some "Zebra"⟩ }

/-- A network oracle answering every request with the text `123`. -/
def net123 : Net := ⟨fun _ => some "123"⟩

/-- The event trace of a CLI run that reaches the final evaluation. -/
def fullTraceMain : List Event :=
  [.fetchUserId, .fetchUserInfo, .ruleAge, .ruleUsername, .fetchGroups,
   .ruleBlacklists, .socialActivity, .fetchFriendCount, .fetchBadgeCount,
   .fetchOldestBadges]

/- ### Lemmas and claim theorems -/

lemma chunk100_nil_iff (bs : List Badge) : chunk100 bs = [] ↔ bs = [] := by
  cases bs with
  | nil => simp [chunk100]
  | cons a rest => simp [chunk100]

lemma chunk100_join_aux (n : Nat) :
    ∀ bs : List Badge, bs.length ≤ n → (chunk100 bs).flatten = bs := by
  induction n with
  | zero =>
    intro bs h
    have : bs = [] := List.eq_nil_of_length_eq_zero (by omega)
    subst this; simp [chunk100]
  | succ n ih =>
    intro bs h
    cases bs with
    | nil => simp [chunk100]
    | cons a rest =>
      rw [chunk100]
      simp only [List.flatten_cons]
      rw [ih ((a :: rest).drop 100) (by simp at h ⊢; omega)]
      exact List.take_append_drop 100 (a :: rest)

lemma chunk100_join (bs : List Badge) : (chunk100 bs).flatten = bs :=
  chunk100_join_aux bs.length bs le_rfl

lemma chunkShape_chunk100_aux (n : Nat) :
    ∀ bs : List Badge, bs.length ≤ n → chunkShape (chunk100 bs) := by
  induction n with
  | zero =>
    intro bs h
    have : bs = [] := List.eq_nil_of_length_eq_zero (by omega)
    subst this; simp [chunk100, chunkShape]
  | succ n ih =>
    intro bs h
    cases bs with
    | nil => simp [chunk100, chunkShape]
    | cons a rest =>
      rw [chunk100]
      have hdrop := ih ((a :: rest).drop 100) (by simp at h ⊢; omega)
      by_cases hz : (a :: rest).drop 100 = []
      · rw [hz]
        simp [chunk100, chunkShape]
      · have hne : chunk100 ((a :: rest).drop 100) ≠ [] :=
          fun hc => hz ((chunk100_nil_iff _).mp hc)
        rcases hcc : chunk100 ((a :: rest).drop 100) with _ | ⟨c, cs⟩
        · exact absurd hcc hne
        · rw [hcc] at hdrop
          refine ⟨?_, by simp, hdrop⟩
          have hlen : 100 ≤ (a :: rest).length := by
            by_contra hlt
            push_neg at hlt
            exact hz (List.drop_eq_nil_of_le (by omega))
          simp only [List.length_take, List.length_cons]
          simp only [List.length_cons] at hlen
          omega

lemma chunkShape_chunk100 (bs : List Badge) : chunkShape (chunk100 bs) :=
  chunkShape_chunk100_aux bs.length bs le_rfl

lemma chunkShape_nonempty {cs : List (List Badge)} (h : chunkShape cs) :
    ∀ c ∈ cs, c ≠ [] := by
  induction cs with
  | nil => simp
  | cons c rest ih =>
    cases rest with
    | nil =>
      intro x hx
      simp only [List.mem_singleton] at hx
      subst hx; exact h
    | cons c' cs' =>
      intro x hx
      rcases List.mem_cons.mp hx with h1 | h2
      · subst h1; exact h.2.1
      · exact ih h.2.2 x h2

lemma sumLen_chunk100 (bs : List Badge) : sumLen (chunk100 bs) = bs.length := by
  have := chunk100_join bs
  calc sumLen (chunk100 bs) = (chunk100 bs).flatten.length := by
        simp [sumLen, List.length_flatten]
    _ = bs.length := by rw [this]

lemma sumLen_cons (c : List Badge) (cs : List (List Badge)) :
    sumLen (c :: cs) = c.length + sumLen cs := by
  simp [sumLen]

lemma cleanResps_of_ne_nil {bs : List Badge} (h : bs ≠ []) :
    cleanResps bs = respsOf (chunk100 bs) := by
  rcases hcc : chunk100 bs with _ | ⟨c, cs⟩
  · exact absurd ((chunk100_nil_iff bs).mp hcc) h
  · simp [cleanResps, pagesOf, respsOf, hcc]

lemma cleanResps_nil : cleanResps [] = [Resp.ok ⟨[], none⟩] := by
  simp [cleanResps, pagesOf, chunk100]

lemma oldestRun_clean (limit : Nat) :
    ∀ (cs : List (List Badge)) (acc : List Badge), (∀ c ∈ cs, c ≠ []) →
      ((oldestRun limit (respsOf cs) acc).badges).take limit =
        (acc ++ cs.flatten).take limit := by
  intro cs
  induction cs with
  | nil =>
    intro acc _
    by_cases hg : acc.length < limit <;>
      simp [oldestRun, respsOf, mkPages, hg]
  | cons c rest ih =>
    intro acc hne
    have hc : c ≠ [] := hne c (by simp)
    cases rest with
    | nil =>
      by_cases hg : acc.length < limit
      · simp [oldestRun, respsOf, mkPages, hg, hc]
      · simp only [respsOf, mkPages, List.map_cons, List.map_nil]
        rw [oldestRun]
        rw [if_neg hg]
        simp only [List.flatten_cons, List.flatten_nil, List.append_nil]
        rw [List.take_append_eq_append_take]
        simp [Nat.sub_eq_zero_of_le (le_of_not_lt hg)]
    | cons c' cs' =>
      by_cases hg : acc.length < limit
      · rw [respsOf, mkPages]
        simp only [List.map_cons]
        rw [oldestRun]
        rw [if_pos hg]
        simp only [hc, if_neg]
        have hcur : ("cur" : String) ≠ "" := by decide
        simp only [hcur, if_neg, ite_false]
        have := ih (acc ++ c) (fun x hx => hne x (by simp [hx]))
        rw [respsOf] at this
        simpa [List.append_assoc] using this
      · simp only [respsOf, mkPages, List.map_cons]
        rw [oldestRun]
        rw [if_neg hg]
        simp only [List.flatten_cons]
        rw [List.take_append_eq_append_take]
        simp [Nat.sub_eq_zero_of_le (le_of_not_lt hg)]

lemma totalCountRun_clean (t : Nat) :
    ∀ (cs : List (List Badge)) (acc : Nat), (∀ c ∈ cs, c ≠ []) →
      (acc + sumLen cs < t →
        (totalCountRun t (respsOf cs) acc).total = acc + sumLen cs) ∧
      (t ≤ acc + sumLen cs →
        t ≤ (totalCountRun t (respsOf cs) acc).total) := by
  intro cs
  induction cs with
  | nil =>
    intro acc _
    constructor
    · intro _; simp [totalCountRun, respsOf, mkPages, sumLen]
    · intro h; simpa [totalCountRun, respsOf, mkPages, sumLen] using h
  | cons c rest ih =>
    intro acc hne
    have hc : c ≠ [] := hne c (by simp)
    have hclen : c.length ≠ 0 := fun h => hc (List.eq_nil_of_length_eq_zero h)
    cases rest with
    | nil =>
      by_cases ht : t ≤ acc + c.length
      · constructor
        · intro habs
          rw [sumLen_cons] at habs
          simp [sumLen] at habs
          omega
        · intro _
          simp only [respsOf, mkPages, List.map_cons, List.map_nil]
          rw [totalCountRun]
          simp only [hclen, if_neg, ite_false]
          rw [if_pos ht]
          exact ht
      · constructor
        · intro _
          simp only [respsOf, mkPages, List.map_cons, List.map_nil]
          rw [totalCountRun]
          simp only [hclen, if_neg, ite_false]
          rw [if_neg ht]
          simp [sumLen]
        · intro habs
          rw [sumLen_cons] at habs
          simp [sumLen] at habs
          omega
    | cons c' cs' =>
      have hrest : ∀ x ∈ c' :: cs', x ≠ [] := fun x hx => hne x (by simp [hx])
      have hcur : ("cur" : String) ≠ "" := by decide
      by_cases ht : t ≤ acc + c.length
      · constructor
        · intro habs
          rw [sumLen_cons] at habs
          omega
        · intro _
          simp only [respsOf, mkPages, List.map_cons]
          rw [totalCountRun]
          simp only [hclen, if_neg, ite_false]
          rw [if_pos ht]
          exact ht
      · have ihr := ih (acc + c.length) hrest
        rw [respsOf] at ihr
        constructor
        · intro hlt
          simp only [respsOf, mkPages, List.map_cons]
          rw [totalCountRun]
          simp only [hclen, if_neg, ite_false]
          rw [if_neg ht]
          simp only [hcur, if_neg, ite_false]
          have := ihr.1 (by rw [sumLen_cons] at hlt; omega)
          simp only [this]
          simp only [sumLen_cons]
          omega
        · intro hge
          simp only [respsOf, mkPages, List.map_cons]
          rw [totalCountRun]
          simp only [hclen, if_neg, ite_false]
          rw [if_neg ht]
          simp only [hcur, if_neg, ite_false]
          exact ihr.2 (by rw [sumLen_cons] at hge; omega)

lemma totalCountRun_fail (t : Nat) :
    ∀ (cs : List (List Badge)) (acc : Nat), (∀ c ∈ cs, c ≠ []) →
      acc + sumLen cs < t →
      (totalCountRun t ((mkPagesCur cs).map Resp.ok ++ [Resp.fail]) acc).total =
        acc + sumLen cs := by
  intro cs
  induction cs with
  | nil =>
    intro acc _ _
    simp [totalCountRun, mkPagesCur, sumLen]
  | cons c rest ih =>
    intro acc hne hlt
    have hc : c ≠ [] := hne c (by simp)
    have hclen : c.length ≠ 0 := fun h => hc (List.eq_nil_of_length_eq_zero h)
    have hcur : ("cur" : String) ≠ "" := by decide
    simp only [sumLen_cons] at hlt ⊢
    have ht : ¬ t ≤ acc + c.length := by omega
    simp only [mkPagesCur, List.map_cons, List.cons_append]
    rw [totalCountRun]
    simp only [hclen, if_neg, ite_false]
    rw [if_neg ht]
    simp only [hcur, if_neg, ite_false]
    show (totalCountRun t ((mkPagesCur rest).map Resp.ok ++ [Resp.fail])
      (acc + c.length)).total = acc + (c.length + sumLen rest)
    rw [ih (acc + c.length) (fun x hx => hne x (by simp [hx])) (by omega)]
    omega

lemma totalCountRun_requests (t : Nat) :
    ∀ (cs : List (List Badge)) (acc : Nat), chunkShape cs →
      t ≤ acc + sumLen cs →
      (totalCountRun t (respsOf cs) acc).requests ≤ max 1 ((t - acc + 99) / 100) := by
  intro cs
  induction cs with
  | nil =>
    intro acc _ _
    simp only [respsOf, mkPages, List.map_nil]
    rw [totalCountRun]
    exact le_trans (Nat.zero_le 1) (le_max_left _ _)
  | cons c rest ih =>
    intro acc hsh hge
    cases rest with
    | nil =>
      have hc : c ≠ [] := hsh
      have hclen : c.length ≠ 0 := fun h => hc (List.eq_nil_of_length_eq_zero h)
      simp only [respsOf, mkPages, List.map_cons, List.map_nil]
      rw [totalCountRun]
      simp only [hclen, if_neg, ite_false]
      by_cases ht : t ≤ acc + c.length
      · rw [if_pos ht]
        exact le_max_left _ _
      · rw [if_neg ht]
        exact le_max_left _ _
    | cons c' cs' =>
      have hlen : c.length = 100 := hsh.1
      have hclen : c.length ≠ 0 := by omega
      have hcur : ("cur" : String) ≠ "" := by decide
      simp only [respsOf, mkPages, List.map_cons]
      rw [totalCountRun]
      simp only [hclen, if_neg, ite_false]
      by_cases ht : t ≤ acc + c.length
      · rw [if_pos ht]
        exact le_max_left _ _
      · rw [if_neg ht]
        simp only [hcur, if_neg, ite_false]
        have hge' : t ≤ acc + c.length + sumLen (c' :: cs') := by
          rw [sumLen_cons] at hge; omega
        have hreq := ih (acc + c.length) hsh.2.2 hge'
        rw [respsOf] at hreq
        show (totalCountRun t (List.map Resp.ok (mkPages (c' :: cs')))
          (acc + c.length)).requests + 1 ≤ max 1 ((t - acc + 99) / 100)
        rw [hlen] at ht hreq ⊢
        omega

lemma oldestRun_starved (limit : Nat) :
    ∀ (cs : List (List Badge)) (acc : List Badge), cs ≠ [] →
      (oldestRun limit (respsOf cs) acc).starved = false := by
  intro cs
  induction cs with
  | nil => intro acc h; exact absurd rfl h
  | cons c rest ih =>
    intro acc _
    cases rest with
    | nil =>
      by_cases hg : acc.length < limit <;>
        by_cases hc : c = [] <;>
          simp [oldestRun, respsOf, mkPages, hg, hc]
    | cons c' cs' =>
      by_cases hg : acc.length < limit
      · by_cases hc : c = []
        · simp [oldestRun, respsOf, mkPages, hg, hc]
        · have hcur : ("cur" : String) ≠ "" := by decide
          simp only [respsOf, mkPages, List.map_cons]
          rw [oldestRun]
          rw [if_pos hg]
          simp only [hc, if_neg, ite_false, hcur]
          show (oldestRun limit (List.map Resp.ok (mkPages (c' :: cs')))
            (acc ++ c)).starved = false
          have := ih (acc ++ c) (by simp)
          rw [respsOf] at this
          exact this
      · simp [oldestRun, respsOf, mkPages, hg]

lemma totalCountRun_starved (t : Nat) :
    ∀ (cs : List (List Badge)) (acc : Nat), cs ≠ [] →
      (totalCountRun t (respsOf cs) acc).starved = false := by
  intro cs
  induction cs with
  | nil => intro acc h; exact absurd rfl h
  | cons c rest ih =>
    intro acc _
    cases rest with
    | nil =>
      by_cases hc : c.length = 0 <;>
        by_cases ht : t ≤ acc + c.length <;>
          simp [totalCountRun, respsOf, mkPages, hc, ht]
    | cons c' cs' =>
      by_cases hc : c.length = 0
      · simp [totalCountRun, respsOf, mkPages, hc]
      · by_cases ht : t ≤ acc + c.length
        · simp [totalCountRun, respsOf, mkPages, hc, ht]
        · have hcur : ("cur" : String) ≠ "" := by decide
          simp only [respsOf, mkPages, List.map_cons]
          rw [totalCountRun]
          simp only [hc, if_neg, ite_false]
          rw [if_neg ht]
          simp only [hcur, if_neg, ite_false]
          show (totalCountRun t (List.map Resp.ok (mkPages (c' :: cs')))
            (acc + c.length)).starved = false
          have := ih (acc + c.length) (by simp)
          rw [respsOf] at this
          exact this

lemma oldestRun_requests_le (limit : Nat) :
    ∀ (resps : List Resp) (acc : List Badge),
      (oldestRun limit resps acc).requests ≤ resps.length := by
  intro resps
  induction resps with
  | nil =>
    intro acc
    by_cases hg : acc.length < limit <;> simp [oldestRun, hg]
  | cons r rest ih =>
    intro acc
    by_cases hg : acc.length < limit
    · cases r with
      | fail => simp [oldestRun, hg]
      | ok p =>
        by_cases hp : p.items = []
        · simp [oldestRun, hg, hp]
        · rw [oldestRun]
          rw [if_pos hg]
          simp only [hp, if_neg, ite_false]
          rcases hcur : p.nextCursor with _ | c
          · simp
          · by_cases hce : c = ""
            · simp [hce]
            · simp only [hce, if_neg, ite_false]
              have := ih (acc ++ p.items)
              simp only [List.length_cons]
              omega
    · cases r with
      | fail => simp [oldestRun, hg]
      | ok p =>
        rw [oldestRun]
        rw [if_neg hg]
        simp

lemma totalCountRun_requests_le (t : Nat) :
    ∀ (resps : List Resp) (acc : Nat),
      (totalCountRun t resps acc).requests ≤ resps.length := by
  intro resps
  induction resps with
  | nil => intro acc; simp [totalCountRun]
  | cons r rest ih =>
    intro acc
    cases r with
    | fail => simp [totalCountRun]
    | ok p =>
      by_cases hp : p.items.length = 0
      · simp [totalCountRun, hp]
      · by_cases ht : t ≤ acc + p.items.length
        · simp [totalCountRun, hp, ht]
        · rw [totalCountRun]
          simp only [hp, if_neg, ite_false]
          rw [if_neg ht]
          rcases hcur : p.nextCursor with _ | c
          · simp
          · by_cases hce : c = ""
            · simp [hce]
            · simp only [hce, if_neg, ite_false]
              have := ih (acc + p.items.length)
              simp only [List.length_cons]
              omega

/-- C8: against the well-formed paginated view of any finite badge collection
`bs` (served oldest-first), `get_oldest_badges` returns exactly the first
`min(sampleSize, true count)` badges — i.e. the prefix `bs.take limit`, which
preserves the served (ascending-by-award-time) order and truncates any
overshoot from the final page — and if the very first page request fails it
returns the empty sequence.  The embedding is a total function, so no
exception escapes (the Python loop body is entirely inside
`try/except RequestException`). -/
theorem C8_oldest_sample :
    (∀ (bs : List Badge) (limit : Nat),
        get_oldest_badges limit (cleanResps bs) = bs.take limit) ∧
    (∀ (bs : List Badge) (limit : Nat),
        (get_oldest_badges limit (cleanResps bs)).length = min limit bs.length) ∧
    (∀ (limit : Nat) (rest : List Resp),
        get_oldest_badges limit (Resp.fail :: rest) = []) := by
  have main : ∀ (bs : List Badge) (limit : Nat),
      get_oldest_badges limit (cleanResps bs) = bs.take limit := by
    intro bs limit
    by_cases hbs : bs = []
    · subst hbs
      cases limit <;>
        simp [get_oldest_badges, oldestRun, cleanResps, pagesOf, chunk100]
    · rw [cleanResps_of_ne_nil hbs, get_oldest_badges]
      have h := oldestRun_clean limit (chunk100 bs) []
        (chunkShape_nonempty (chunkShape_chunk100 bs))
      rw [h, List.nil_append, chunk100_join]
  refine ⟨main, ?_, ?_⟩
  · intro bs limit
    rw [main bs limit, List.length_take]
  · intro limit rest
    cases limit <;> simp [get_oldest_badges, oldestRun]

/-- C7: against the well-formed paginated view of any finite badge
collection, `get_total_badge_count`: (1) returns at least `passThreshold`
whenever the true total is at least `passThreshold`, issuing at most
`max 1 ceil(passThreshold/100)` page requests (it stops as soon as the
running total reaches the threshold); (2) returns the exact total when the
collection exhausts below the threshold; (3) on a transport failure
mid-sequence it returns the partial total accumulated so far (totality of
the embedding reflects that the loop body never lets the exception
propagate). -/
theorem C7_threshold_count :
    (∀ (bs : List Badge) (t : Nat), t ≤ bs.length →
        t ≤ get_total_badge_count t (cleanResps bs) ∧
        (totalCountRun t (cleanResps bs) 0).requests ≤ max 1 ((t + 99) / 100)) ∧
    (∀ (bs : List Badge) (t : Nat), bs.length < t →
        get_total_badge_count t (cleanResps bs) = bs.length) ∧
    (∀ (cs : List (List Badge)) (t : Nat), (∀ c ∈ cs, c ≠ []) → sumLen cs < t →
        get_total_badge_count t ((mkPagesCur cs).map Resp.ok ++ [Resp.fail]) =
          sumLen cs) := by
  refine ⟨?_, ?_, ?_⟩
  · intro bs t ht
    by_cases hbs : bs = []
    · subst hbs
      simp only [List.length_nil, Nat.le_zero] at ht
      subst ht
      constructor
      · exact Nat.zero_le _
      · rw [cleanResps_nil]
        decide
    · rw [cleanResps_of_ne_nil hbs]
      constructor
      · have h := (totalCountRun_clean t (chunk100 bs) 0
          (chunkShape_nonempty (chunkShape_chunk100 bs))).2
        rw [sumLen_chunk100, Nat.zero_add] at h
        exact h ht
      · have h := totalCountRun_requests t (chunk100 bs) 0
          (chunkShape_chunk100 bs) (by rw [sumLen_chunk100]; omega)
        rwa [Nat.sub_zero] at h
  · intro bs t ht
    by_cases hbs : bs = []
    · subst hbs
      simp only [List.length_nil]
      simp [get_total_badge_count, totalCountRun, cleanResps, pagesOf, chunk100]
    · rw [cleanResps_of_ne_nil hbs]
      have h := (totalCountRun_clean t (chunk100 bs) 0
        (chunkShape_nonempty (chunkShape_chunk100 bs))).1
      rw [sumLen_chunk100, Nat.zero_add] at h
      exact h ht
  · intro cs t hne hlt
    have h := totalCountRun_fail t cs 0 hne (by omega)
    rw [Nat.zero_add] at h
    exact h

/-- Witness for C7 at concrete inputs: a 150-badge collection with threshold
120 (early stop after 2 pages), the same collection with threshold 200
(exhausts at 150), and a failure after one full 100-badge page with
threshold 200 (partial total 100). -/
theorem C7_threshold_count_witness :
    (120 ≤ get_total_badge_count 120 (cleanResps (mkBadges 150)) ∧
      (totalCountRun 120 (cleanResps (mkBadges 150)) 0).requests ≤
        max 1 ((120 + 99) / 100)) ∧
    get_total_badge_count 200 (cleanResps (mkBadges 150)) =
      (mkBadges 150).length ∧
    get_total_badge_count 200
        ((mkPagesCur [mkBadges 100]).map Resp.ok ++ [Resp.fail]) =
      sumLen [mkBadges 100] :=
  ⟨C7_threshold_count.1 (mkBadges 150) 120 (by simp [mkBadges]),
   C7_threshold_count.2.1 (mkBadges 150) 200 (by simp [mkBadges]),
   C7_threshold_count.2.2 [mkBadges 100] 200 (by simp [mkBadges])
     (by simp [sumLen, mkBadges])⟩

/-- C10: both paginated fetch loops terminate against the paginated view of
every finite badge collection: they never exhaust the served page sequence
(`starved = false`: every run ends by threshold/size satisfaction, an empty
page, or cursor absence), they issue at most one request per served page,
and an empty-string continuation cursor is handled exactly like an absent
one (equivalent terminal signals). -/
theorem C10_pagination_terminates :
    (∀ (bs : List Badge) (limit : Nat),
        (oldestRun limit (cleanResps bs) []).starved = false ∧
        (oldestRun limit (cleanResps bs) []).requests ≤ (pagesOf bs).length) ∧
    (∀ (bs : List Badge) (t : Nat),
        (totalCountRun t (cleanResps bs) 0).starved = false ∧
        (totalCountRun t (cleanResps bs) 0).requests ≤ (pagesOf bs).length) ∧
    (∀ (limit : Nat) (items : List Badge) (rest : List Resp) (acc : List Badge),
        oldestRun limit (Resp.ok ⟨items, some ""⟩ :: rest) acc =
          oldestRun limit (Resp.ok ⟨items, none⟩ :: rest) acc) ∧
    (∀ (t : Nat) (items : List Badge) (rest : List Resp) (acc : Nat),
        totalCountRun t (Resp.ok ⟨items, some ""⟩ :: rest) acc =
          totalCountRun t (Resp.ok ⟨items, none⟩ :: rest) acc) := by
  refine ⟨?_, ?_, ?_, ?_⟩
  · intro bs limit
    constructor
    · by_cases hbs : bs = []
      · subst hbs
        cases limit <;>
          simp [oldestRun, cleanResps, pagesOf, chunk100]
      · rw [cleanResps_of_ne_nil hbs]
        exact oldestRun_starved limit (chunk100 bs) []
          (fun h => hbs ((chunk100_nil_iff bs).mp h))
    · have h := oldestRun_requests_le limit (cleanResps bs) []
      simpa [cleanResps] using h
  · intro bs t
    constructor
    · by_cases hbs : bs = []
      · subst hbs
        rw [cleanResps_nil]
        rw [totalCountRun]
        simp
      · rw [cleanResps_of_ne_nil hbs]
        exact totalCountRun_starved t (chunk100 bs) 0
          (fun h => hbs ((chunk100_nil_iff bs).mp h))
    · have h := totalCountRun_requests_le t (cleanResps bs) 0
      simpa [cleanResps] using h
  · intro limit items rest acc
    by_cases hg : acc.length < limit <;>
      by_cases hi : items = [] <;>
        simp [oldestRun, hg, hi]
  · intro t items rest acc
    by_cases hi : items.length = 0
    · simp [totalCountRun, hi]
    · by_cases ht : t ≤ acc + items.length <;>
        simp [totalCountRun, hi, ht]

/-- C1: every run (CLI or UI) that reaches the final evaluation is VERIFIED
when the accumulated red-flag list has length 0 or 1 and DISMISSED when it
has length 2 or more: the final status emitted with a `finalReport` outcome
is exactly `finalVerdict` of the red-flag list, and `finalVerdict` verifies
at length ≤ 1 and dismisses at length ≥ 2. -/
theorem C1_decision_boundary :
    (∀ flags : List String, flags.length ≤ 1 → finalVerdict flags = .verified) ∧
    (∀ flags : List String, 2 ≤ flags.length → finalVerdict flags = .dismissed) ∧
    (∀ (cfg : Config) (now : Int) (env : Env) (u : String) (st : Status)
        (flags : List String) (tr : List Event),
        mainRun cfg now env u = (.finalReport st flags, tr) →
          st = finalVerdict flags) ∧
    (∀ (cfg : Config) (now : Int) (env : Env) (u sheetUrl : String) (net : Net)
        (st : Status) (flags : List String) (tr : List Event),
        appRun cfg now env u sheetUrl net = (.finalReport st flags, tr) →
          st = finalVerdict flags) := by
  refine ⟨?_, ?_, ?_, ?_⟩
  · intro flags h
    unfold finalVerdict
    rw [if_neg (by omega)]
  · intro flags h
    unfold finalVerdict
    rw [if_pos h]
  · intro cfg now env u st flags tr h
    unfold mainRun at h
    repeat' split at h
    all_goals injection h with hout htr
    all_goals
      first
        | (injection hout with hst hfl
           subst hfl
           exact hst.symm)
        | injection hout
  · intro cfg now env u sheetUrl net st flags tr h
    unfold appRun at h
    repeat' split at h
    all_goals injection h with hout htr
    all_goals
      first
        | (injection hout with hst hfl
           subst hfl
           exact hst.symm)
        | injection hout

/-- Witness for C1: the boundary at concrete lengths 1 and 2, and a concrete
CLI run reaching the final evaluation with exactly one red flag whose status
is VERIFIED. -/
theorem C1_decision_boundary_witness :
    finalVerdict ["a"] = Status.verified ∧
    finalVerdict ["a", "b"] = Status.dismissed ∧
    Status.verified = finalVerdict ["Fewer than 10 pages of badges (0 total)."] :=
  ⟨C1_decision_boundary.1 ["a"] (by decide),
   C1_decision_boundary.2.1 ["a", "b"] (by decide),
   C1_decision_boundary.2.2.1 cfg0 t0 env1 "gooduser" Status.verified
     ["Fewer than 10 pages of badges (0 total)."] fullTraceMain (by decide)⟩

/-- C2: whenever the account-age, username, or blacklist/group rules produce
at least one instant-dismissal reason (the accumulated `instant_dismissals`
list is nonempty), both orchestrators terminate with the instant-dismissal
outcome and the social-activity rule and its fetches (friend count, badge
threshold count, oldest-badge sample) are never invoked: the run's full
event trace is exactly the instant-check prefix. -/
theorem C2_instant_dismissal_short_circuit :
    (∀ (cfg : Config) (now : Int) (env : Env) (u : String) (uid : Nat)
        (ui : UserInfo) (ageRes : Bool × String) (groups : List GroupInfo),
        trimStr u ≠ "" →
        env.userId = some uid →
        env.userInfo = some ui →
        check_account_age now ui = .ok ageRes →
        env.groups = some groups →
        instantList cfg ageRes ui cfg.IFD_BLACKLIST_IDS uid groups ≠ [] →
        mainRun cfg now env u =
          (.instantDismissed
              (instantList cfg ageRes ui cfg.IFD_BLACKLIST_IDS uid groups),
           [.fetchUserId, .fetchUserInfo, .ruleAge, .ruleUsername, .fetchGroups,
            .ruleBlacklists])) ∧
    (∀ (cfg : Config) (now : Int) (env : Env) (u sheetUrl : String) (net : Net)
        (uid : Nat) (ui : UserInfo) (ageRes : Bool × String)
        (groups : List GroupInfo) (tifd : Finset Nat),
        u ≠ "" →
        env.userId = some uid →
        env.userInfo = some ui →
        check_account_age now ui = .ok ageRes →
        env.groups = some groups →
        tifd = computeTempIfd cfg.IFD_BLACKLIST_IDS sheetUrl
          (if sheetUrl = "" then ∅ else (fetch_live_blacklist_app net sheetUrl).1) →
        instantList cfg ageRes ui tifd uid groups ≠ [] →
        appRun cfg now env u sheetUrl net =
          (.instantDismissed (instantList cfg ageRes ui tifd uid groups),
           [.fetchUserId, .fetchUserInfo, .fetchGroups, .ruleAge, .ruleUsername,
            .ruleBlacklists])) := by
  constructor
  · intro cfg now env u uid ui ageRes groups h0 h1 h2 h3 h4 h5
    simp [mainRun, h0, h1, h2, h3, h4, h5]
  · intro cfg now env u sheetUrl net uid ui ageRes groups tifd h0 h1 h2 h3 h4 htifd h5
    subst htifd
    simp [appRun, h0, h1, h2, h3, h4, h5]

/-- Witness for C2: a run whose username contains `alt` is instantly
dismissed with that single reason and its trace stops at the blacklist rule
(no social-activity events). -/
theorem C2_instant_dismissal_short_circuit_witness :
    mainRun cfg0 t0 env2 "CoolAltAccount" =
      (.instantDismissed
          (instantList cfg0 (false, "Account is 3199 days old.") ui2
            cfg0.IFD_BLACKLIST_IDS 7 gs13),
       [.fetchUserId, .fetchUserInfo, .ruleAge, .ruleUsername, .fetchGroups,
        .ruleBlacklists]) :=
  C2_instant_dismissal_short_circuit.1 cfg0 t0 env2 "CoolAltAccount" 7 ui2
    (false, "Account is 3199 days old.") gs13
    (by decide) rfl rfl (by rfl) rfl (by decide)

/-- C3 (the claim fails on the code): the username `12345` has 5 ≥ 4 decimal
digits (the digit-spam threshold defined at app.py line 151) and triggers no
other username check, yet `check_username` produces no red-flag reason — in
fact the red-flag slot of `check_username` is `none` on every input in both
source files; the `USERNAME_DIGIT_THRESHOLD` constant is referenced by no
function.  The spec's digit-spam red flag is unimplemented. -/
theorem C3_digit_flag_never_produced :
    USERNAME_DIGIT_THRESHOLD ≤ digitCount "12345" ∧
    check_username cfg0 ⟨"12345", "D", none⟩ = (none, none) ∧
    (∀ (cfg : Config) (ui : UserInfo), (check_username cfg ui).2 = none) := by
  refine ⟨by decide, by decide, ?_⟩
  intro cfg ui
  simp only [check_username]
  repeat' split
  all_goals rfl

/-- C4 (the claim fails on the code, whose non-Z branch shows the intended
behaviour): a malformed `created` timestamp containing the character Z
(here `Zebra`) makes `check_account_age` raise — `fromisoformat` is called
outside any `try` in the Z branch (verification.py line 191, app.py line
158) — and `main` propagates the exception; whereas a malformed timestamp
without Z is caught and becomes an unverifiable-age instant dismissal, and
a missing timestamp becomes the unverifiable-age dismissal. -/
theorem C4_age_unparsable_timestamp :
    check_account_age t0 ⟨"victim", "V", some "Zebra"⟩ =
      .error "Invalid isoformat string: +00:00ebra" ∧
    (mainRun cfg0 t0 envZ "victim").1 =
      .raised "Invalid isoformat string: +00:00ebra" ∧
    check_account_age t0 ⟨"v", "V", some "garbage"⟩ =
      .ok (true, "Could not parse account creation date: garbage") ∧
    check_account_age t0 ⟨"v", "V", none⟩ =
      .ok (true, "Could not verify account age.") :=
  ⟨by rfl, by decide, by rfl, by rfl⟩

/-- Counterexample for C5: the verification.py `fetch_live_blacklist` has no
host restriction — for a URL whose host is `evil.example` it issues the
network request (second component `true`) and returns the IDs found there,
neither rejecting before network access nor returning the empty set. -/
theorem C5_cli_fetch_lacks_host_guard :
    hostname "https://evil.example/blacklist.csv" = some "evil.example" ∧
    fetch_live_blacklist_cli net123 "https://evil.example/blacklist.csv" =
      ({123}, true) := by
  refine ⟨by rfl, by decide⟩

/-- C5 as amended: the app.py `fetch_live_blacklist` rejects every URL whose
host is not `docs.google.com` before any network access (no request issued)
and returns the empty set; the verification.py copy has no such guard but is
never invoked by the CLI orchestrator. -/
theorem C5_app_fetch_host_guard (net : Net) (url : String)
    (h : hostname url ≠ some "docs.google.com") :
    fetch_live_blacklist_app net url = (∅, false) := by
  unfold fetch_live_blacklist_app
  rw [if_pos h]

/-- Witness for C5 at a concrete untrusted URL. -/
theorem C5_app_fetch_host_guard_witness :
    hostname "https://evil.example/x.csv" ≠ some "docs.google.com" ∧
    fetch_live_blacklist_app net123 "https://evil.example/x.csv" = (∅, false) :=
  ⟨by decide,
   C5_app_fetch_host_guard net123 "https://evil.example/x.csv" (by decide)⟩

/-- C6: the blacklist merge is the set union of the static and supplementary
sets; it is idempotent (merging the same supplementary set twice equals
merging it once) and commutative; merging the empty set yields the static
set, and the `temp_ifd` selection yields the static set when the
supplementary source is absent (no sheet URL) or failed/empty (no IDs).
Non-mutation of the static configuration set is inherent in the embedding:
`mergeBlacklist` models `set(IFD_BLACKLIST_IDS) | set(new_ids)`, which
builds a fresh set from a copy. -/
theorem C6_blacklist_merge_algebra :
    (∀ s t : Finset Nat, mergeBlacklist s t = s ∪ t) ∧
    (∀ s t : Finset Nat, mergeBlacklist (mergeBlacklist s t) t = mergeBlacklist s t) ∧
    (∀ s t : Finset Nat, mergeBlacklist s t = mergeBlacklist t s) ∧
    (∀ s : Finset Nat, mergeBlacklist s ∅ = s) ∧
    (∀ (s : Finset Nat) (url : String), computeTempIfd s url ∅ = s) ∧
    (∀ s ids : Finset Nat, computeTempIfd s "" ids = s) := by
  refine ⟨fun s t => rfl, ?_, ?_, ?_, ?_, ?_⟩
  · intro s t
    simp [mergeBlacklist, Finset.union_assoc]
  · intro s t
    simp [mergeBlacklist, Finset.union_comm]
  · intro s
    simp [mergeBlacklist]
  · intro s url
    unfold computeTempIfd
    split
    · simp
    · rfl
  · intro s ids
    unfold computeTempIfd
    simp

/-- Counterexample for C9: in the CLI, a run whose group-membership fetch
fails does abort with the fetch-error outcome, but the account-age and
username rules have already been evaluated by then (they appear in the
trace), contradicting the claim that no rule runs in such a run. -/
theorem C9_group_fetch_failure_after_rules :
    (mainRun cfg0 t0 env9 "gooduser").1 = Outcome.groupsFetchError ∧
    Event.ruleAge ∈ (mainRun cfg0 t0 env9 "gooduser").2 ∧
    Event.ruleUsername ∈ (mainRun cfg0 t0 env9 "gooduser").2 :=
  ⟨by decide, by decide, by decide⟩

/-- C9 as amended: a failed profile or group fetch always aborts the run
with a distinct fetch-error outcome (never a dismissal or not-found).  In
the UI both fetch failures abort before any rule runs (no rule events in
the trace).  In the CLI a profile-fetch failure aborts before any rule
runs, but a group-fetch failure aborts only after the account-age and
username rules have run (their events are in the trace); the blacklist
rule and the social-activity rule are still never invoked. -/
theorem C9_fetch_failure_aborts :
    (∀ (cfg : Config) (now : Int) (env : Env) (u sheetUrl : String) (net : Net)
        (uid : Nat),
        u ≠ "" → env.userId = some uid → env.userInfo = none →
        appRun cfg now env u sheetUrl net =
          (.userInfoFetchError, [.fetchUserId, .fetchUserInfo, .fetchGroups])) ∧
    (∀ (cfg : Config) (now : Int) (env : Env) (u sheetUrl : String) (net : Net)
        (uid : Nat) (ui : UserInfo),
        u ≠ "" → env.userId = some uid → env.userInfo = some ui →
        env.groups = none →
        appRun cfg now env u sheetUrl net =
          (.groupsFetchError, [.fetchUserId, .fetchUserInfo, .fetchGroups])) ∧
    (∀ (cfg : Config) (now : Int) (env : Env) (u : String) (uid : Nat),
        trimStr u ≠ "" → env.userId = some uid → env.userInfo = none →
        mainRun cfg now env u =
          (.userInfoFetchError, [.fetchUserId, .fetchUserInfo])) ∧
    (∀ (cfg : Config) (now : Int) (env : Env) (u : String) (uid : Nat)
        (ui : UserInfo) (ageRes : Bool × String),
        trimStr u ≠ "" → env.userId = some uid → env.userInfo = some ui →
        check_account_age now ui = .ok ageRes → env.groups = none →
        mainRun cfg now env u =
          (.groupsFetchError,
           [.fetchUserId, .fetchUserInfo, .ruleAge, .ruleUsername,
            .fetchGroups])) := by
  refine ⟨?_, ?_, ?_, ?_⟩
  · intro cfg now env u sheetUrl net uid h0 h1 h2
    simp [appRun, h0, h1, h2]
  · intro cfg now env u sheetUrl net uid ui h0 h1 h2 h3
    simp [appRun, h0, h1, h2, h3]
  · intro cfg now env u uid h0 h1 h2
    simp [mainRun, h0, h1, h2]
  · intro cfg now env u uid ui ageRes h0 h1 h2 h3 h4
    simp [mainRun, h0, h1, h2, h3, h4]

/-- Witness for C9 at concrete runs: a UI run with a failed profile fetch
and a CLI run with a failed group fetch. -/
theorem C9_fetch_failure_aborts_witness :
    appRun cfg0 t0 envNoInfo "gooduser" "" net123 =
      (.userInfoFetchError, [.fetchUserId, .fetchUserInfo, .fetchGroups]) ∧
    mainRun cfg0 t0 env9 "gooduser" =
      (.groupsFetchError,
       [.fetchUserId, .fetchUserInfo, .ruleAge, .ruleUsername, .fetchGroups]) :=
  ⟨C9_fetch_failure_aborts.1 cfg0 t0 envNoInfo "gooduser" "" net123 7
     (by decide) rfl rfl,
   C9_fetch_failure_aborts.2.2.2 cfg0 t0 env9 "gooduser" 7 ui1
     (false, "Account is 3199 days old.") (by decide) rfl rfl (by rfl) rfl⟩
